import Mathlib

/-!
Verification development for the biTech visual client.

The file shallowly embeds the product logic of the three React components
(`VisualExtractor`, `VisualFitLay`, `VisualSuite`) in Lean:

* strings are modelled as `List Char` (`String.data` at the boundary);
* JavaScript `String.prototype.split` (with and without the `limit`
  argument) is modelled by `splitSub`, splitting on every occurrence of a
  literal separator, leftmost first;
* JavaScript objects keyed by numbers (`Record<number, T>`) are modelled as
  association lists with first-occurrence update semantics (`recSet`,
  `recGet`);
* the asynchronous orchestrator functions are decomposed at their `await`
  points into explicit start/completion step functions on an explicit state
  record, mirroring the single-threaded cooperative event loop: everything
  between two suspension points is one atomic step.
-/

set_option maxRecDepth 4000

/-- Model of the whitespace trimming performed by JS `String.prototype.trim`
(the whitespace actually occurring in this program is covered by
`Char.isWhitespace`). -/
def trimChars (l : List Char) : List Char :=
  ((l.dropWhile Char.isWhitespace).reverse.dropWhile Char.isWhitespace).reverse

/-- Index of the first occurrence of the literal substring `sep` in `s`
(JS `String.prototype.indexOf`). -/
def findSub (sep : List Char) : List Char → Option Nat
  | [] => none
  | c :: rest =>
    if sep.isPrefixOf (c :: rest) then some 0
    else (findSub sep rest).map (· + 1)

/-- Whether `sep` occurs as a literal substring of `s`
(JS `String.prototype.includes`). -/
def hasSub (sep s : List Char) : Bool :=
  (findSub sep s).isSome

/-- Fuelled worker for `splitSub`; the fuel is always sufficient because a
non-empty separator consumes at least one character per round. -/
def splitSubAux : Nat → List Char → List Char → List (List Char)
  | 0, _, s => [s]
  | fuel + 1, sep, s =>
    match findSub sep s with
    | none => [s]
    | some i => s.take i :: splitSubAux fuel sep (s.drop (i + sep.length))

/-- JS `s.split(sep)` for a non-empty literal separator `sep`: the list of
maximal separator-free segments, splitting at every occurrence left to
right.  `s.split(sep, limit)` is `(splitSub sep s).take limit`. -/
def splitSub (sep s : List Char) : List (List Char) :=
  splitSubAux (s.length + 1) sep s

/-- The three literal section delimiters used by `VisualExtractor`. -/
def dnaDelim : List Char := "----- ANALISA DNA -----".data

/-- The final-prompt section delimiter. -/
def fpDelim : List Char := "----- FINAL PROMPT -----".data

/-- The tips section delimiter. -/
def tipsDelim : List Char := "----- Tips Konsistensi -----".data

/-- The DNA section body, from
`result.split('----- ANALISA DNA -----')[1]?.split('----- FINAL PROMPT -----')[0] || ''`
(src/src/main.tsx line 451). -/
def dnaSectionBody (result : List Char) : List Char :=
  (((splitSub dnaDelim result).get? 1).map
    (fun s => (splitSub fpDelim s).headD [])).getD []

/-- The per-line key/value pairs displayed for the DNA section
(src/src/main.tsx lines 451-459): lines of the section body, keeping those
containing a colon, each split by `line.split(':', 2)` into
`[key, value]`, with the displayed label `key.trim()` and the displayed
or copied value `value?.trim() || ''`. -/
def dnaPairs (result : List Char) : List (List Char × List Char) :=
  ((splitSub ['\n'] (dnaSectionBody result)).filter (fun l => l.contains ':')).map
    (fun line =>
      let parts := (splitSub [':'] line).take 2
      (trimChars (parts.headD []), ((parts.get? 1).map trimChars).getD []))

/-- The final-prompt text before display, from
`result.split('----- FINAL PROMPT -----')[1]?.split('----- Tips Konsistensi -----')[0].trim()`
(src/src/main.tsx lines 476 and 479); `none` models the `undefined` that the
optional chain yields when the delimiter is absent. -/
def finalPromptText (result : List Char) : Option (List Char) :=
  ((splitSub fpDelim result).get? 1).map
    (fun s => trimChars ((splitSub tipsDelim s).headD []))

/-- The final-prompt section body as rendered/copied: line 476 appends
`|| ''`, and React renders the `undefined` of line 479 as the empty string,
so an absent delimiter yields the empty string. -/
def finalPromptBody (result : List Char) : List Char :=
  (finalPromptText result).getD []

/-- The tips text, from
`result.split('----- Tips Konsistensi -----')[1]?.trim()`
(src/src/main.tsx lines 492 and 496). -/
def tipsText (result : List Char) : Option (List Char) :=
  ((splitSub tipsDelim result).get? 1).map trimChars

/-- The tips section body as rendered/copied (line 492 appends `|| ''`). -/
def tipsBody (result : List Char) : List Char :=
  (tipsText result).getD []

-- Basic facts about `findSub` / `splitSub`.

theorem findSub_none_of_not_hasSub {sep s : List Char} (h : hasSub sep s = false) :
    findSub sep s = none := by
  unfold hasSub at h
  cases hf : findSub sep s with
  | none => rfl
  | some i => rw [hf] at h; simp at h

theorem findSub_le {sep : List Char} : ∀ {s : List Char} {i : Nat},
    findSub sep s = some i → i + sep.length ≤ s.length := by
  intro s
  induction s with
  | nil => intro i h; simp [findSub] at h
  | cons c rest ih =>
    intro i h
    unfold findSub at h
    by_cases hp : sep.isPrefixOf (c :: rest)
    · simp [hp] at h
      subst h
      have : sep <+: (c :: rest) := (List.isPrefixOf_iff_prefix).mp hp
      simpa using this.length_le
    · simp [hp] at h
      obtain ⟨j, hj, rfl⟩ := h
      have := ih hj
      simp [List.length_cons]
      omega

theorem splitSubAux_fuel {sep : List Char} (hsep : sep ≠ []) :
    ∀ (f₁ f₂ : Nat) (s : List Char), s.length < f₁ → s.length < f₂ →
      splitSubAux f₁ sep s = splitSubAux f₂ sep s := by
  intro f₁
  induction f₁ with
  | zero => intro f₂ s h1 _; omega
  | succ f ih =>
    intro f₂ s h1 h2
    cases f₂ with
    | zero => omega
    | succ f' =>
      unfold splitSubAux
      cases hf : findSub sep s with
      | none => simp [hf]
      | some i =>
        have hlen : i + sep.length ≤ s.length := findSub_le hf
        have hpos : 1 ≤ sep.length := by
          cases sep with
          | nil => exact absurd rfl hsep
          | cons _ _ => simp
        have hdrop : (s.drop (i + sep.length)).length < s.length := by
          simp [List.length_drop]
          omega
        simp only [hf]
        congr 1
        exact ih f' (s.drop (i + sep.length)) (by omega) (by omega)

theorem splitSub_eq {sep : List Char} (hsep : sep ≠ []) (s : List Char) :
    splitSub sep s =
      match findSub sep s with
      | none => [s]
      | some i => s.take i :: splitSub sep (s.drop (i + sep.length)) := by
  unfold splitSub
  unfold splitSubAux
  cases hf : findSub sep s with
  | none => simp [hf]
  | some i =>
    have hlen : i + sep.length ≤ s.length := findSub_le hf
    have hpos : 1 ≤ sep.length := by
      cases sep with
      | nil => exact absurd rfl hsep
      | cons _ _ => simp
    have hdrop : (s.drop (i + sep.length)).length < s.length := by
      simp [List.length_drop]
      omega
    simp only [hf]
    congr 1
    exact splitSubAux_fuel hsep s.length ((s.drop (i + sep.length)).length + 1)
      (s.drop (i + sep.length)) hdrop (by omega)

theorem splitSub_of_not_hasSub {sep s : List Char} (hsep : sep ≠ [])
    (h : hasSub sep s = false) : splitSub sep s = [s] := by
  rw [splitSub_eq hsep, findSub_none_of_not_hasSub h]

theorem dnaDelim_ne_nil : dnaDelim ≠ [] := by decide

theorem fpDelim_ne_nil : fpDelim ≠ [] := by decide

theorem tipsDelim_ne_nil : tipsDelim ≠ [] := by decide

/-- Claim C6: section extraction is total — it is a total function of the
result text blob (it never raises an error), and whenever one of the three
literal delimiters is absent from the blob the corresponding section body
is the empty string.  Totality is witnessed by `dnaSectionBody`,
`finalPromptBody` and `tipsBody` being total Lean functions translated
expression-by-expression from the source; the emptiness defaults are the
content of the theorem. -/
theorem sections_total_default_empty (result : List Char) :
    (hasSub dnaDelim result = false → dnaSectionBody result = []) ∧
    (hasSub fpDelim result = false → finalPromptBody result = []) ∧
    (hasSub tipsDelim result = false → tipsBody result = []) := by
  refine ⟨fun h => ?_, fun h => ?_, fun h => ?_⟩
  · unfold dnaSectionBody
    rw [splitSub_of_not_hasSub dnaDelim_ne_nil h]
    rfl
  · unfold finalPromptBody finalPromptText
    rw [splitSub_of_not_hasSub fpDelim_ne_nil h]
    rfl
  · unfold tipsBody tipsText
    rw [splitSub_of_not_hasSub tipsDelim_ne_nil h]
    rfl

/-- Witness for `sections_total_default_empty` at the concrete blob
`"hello"`, which contains none of the three delimiters. -/
theorem sections_total_default_empty_witness :
    dnaSectionBody "hello".data = [] ∧
    finalPromptBody "hello".data = [] ∧
    tipsBody "hello".data = [] := by
  obtain ⟨h1, h2, h3⟩ := sections_total_default_empty ("hello".data)
  exact ⟨h1 (by decide), h2 (by decide), h3 (by decide)⟩

/-- The worked example input from the specification, section 8. -/
def exInput : List Char :=
  ("----- ANALISA DNA -----\nSUBJECT: a person\n----- FINAL PROMPT -----\nfinal text\n----- Tips Konsistensi -----\ntip one").data

/-- Claim C7: parsing the specification's example blob yields a DNA section
containing the line `SUBJECT: a person` whose key/value view is exactly
`("SUBJECT", "a person")`, a final-prompt body `final text`, and a tips
body `tip one`. -/
theorem example_scenario_sections :
    (splitSub ['\n'] (dnaSectionBody exInput)).contains ("SUBJECT: a person".data) = true ∧
    dnaPairs exInput = [("SUBJECT".data, "a person".data)] ∧
    finalPromptBody exInput = "final text".data ∧
    tipsBody exInput = "tip one".data := by
  decide

theorem findSub_singleton (c : Char) (l : List Char) :
    findSub [c] l =
      if c ∈ l then some ((l.takeWhile (· != c)).length) else none := by
  induction l with
  | nil => simp [findSub]
  | cons a rest ih =>
    unfold findSub
    by_cases hc : c = a
    · subst hc
      simp [List.isPrefixOf, List.takeWhile]
    · have hpre : ([c].isPrefixOf (a :: rest)) = false := by
        simp [List.isPrefixOf]
        exact hc
      have hne : (a != c) = true := by
        simp [bne]
        exact fun h => hc h.symm
      rw [hpre]
      simp only [Bool.false_eq_true, if_false, ih]
      by_cases hm : c ∈ rest
      · have hmem : c ∈ a :: rest := List.mem_cons_of_mem a hm
        simp [hm, hmem, List.takeWhile, hne]
      · have hmem : c ∉ a :: rest := by
          simp [List.mem_cons]
          exact ⟨hc, hm⟩
        simp [hm, hmem]

theorem take_length_takeWhile (p : Char → Bool) (l : List Char) :
    l.take ((l.takeWhile p).length) = l.takeWhile p := by
  induction l with
  | nil => rfl
  | cons a rest ih =>
    by_cases hp : p a
    · simp [List.takeWhile, hp, List.take, ih]
    · simp [List.takeWhile, hp]

theorem drop_length_takeWhile_add (p : Char → Bool) (l : List Char) (n : Nat) :
    l.drop ((l.takeWhile p).length + n) = (l.dropWhile p).drop n := by
  induction l with
  | nil => simp
  | cons a rest ih =>
    by_cases hp : p a
    · simp only [List.takeWhile, List.dropWhile, hp]
      simpa [Nat.succ_add] using ih
    · simp [List.takeWhile, List.dropWhile, hp]

theorem takeWhile_ne_of_not_mem {c : Char} {l : List Char}
    (h : c ∉ l) : l.takeWhile (· != c) = l := by
  apply List.takeWhile_eq_self_iff.mpr
  intro x hx
  simp [bne]
  exact fun he => h (he ▸ hx)

theorem splitSub_ne_nil {sep : List Char} (hsep : sep ≠ []) (s : List Char) :
    splitSub sep s ≠ [] := by
  rw [splitSub_eq hsep]
  cases findSub sep s <;> simp

theorem splitSub_singleton_headD (c : Char) (l : List Char) :
    (splitSub [c] l).headD [] = l.takeWhile (· != c) := by
  rw [splitSub_eq (by simp), findSub_singleton]
  by_cases hm : c ∈ l
  · simp only [hm, if_true]
    simp [take_length_takeWhile]
  · simp only [hm, if_false]
    simp [takeWhile_ne_of_not_mem hm]

theorem splitSub_singleton_take_two {c : Char} {l : List Char}
    (h : c ∈ l) :
    (splitSub [c] l).take 2 =
      [l.takeWhile (· != c), ((l.dropWhile (· != c)).drop 1).takeWhile (· != c)] := by
  rw [splitSub_eq (by simp), findSub_singleton]
  simp only [h, if_true, List.length_singleton]
  have hrest : l.drop ((l.takeWhile (· != c)).length + 1) = (l.dropWhile (· != c)).drop 1 :=
    drop_length_takeWhile_add (· != c) l 1
  have hne := @splitSub_ne_nil [c] (by simp) (l.drop ((l.takeWhile (· != c)).length + 1))
  cases hsp : splitSub [c] (l.drop ((l.takeWhile (· != c)).length + 1)) with
  | nil => exact absurd hsp hne
  | cons x xs =>
    have hx : x = (l.drop ((l.takeWhile (· != c)).length + 1)).takeWhile (· != c) := by
      have hh := splitSub_singleton_headD c (l.drop ((l.takeWhile (· != c)).length + 1))
      rw [hsp] at hh
      simpa using hh
    simp [List.take, hx, hrest, take_length_takeWhile]

/-- A DNA-mode result whose single key/value line contains a second colon,
used to separate the two readings of the key/value split. -/
def ex2Input : List Char :=
  ("----- ANALISA DNA -----\nSUBJECT: a: b\n----- FINAL PROMPT -----").data

/-- Counterexample to claim C2: on the line `SUBJECT: a: b` the code
produces the value `a` (the text between the first and the second colon),
not the entire remainder `a: b` of the line after the first colon that the
claim promises, because JS `line.split(':', 2)` truncates the split at two
fields and discards the rest of the line. -/
theorem dna_pair_value_truncated_at_second_colon :
    dnaPairs ex2Input = [("SUBJECT".data, "a".data)] ∧
    ¬ dnaPairs ex2Input = [("SUBJECT".data, "a: b".data)] := by
  decide

/-- The key of the amended key/value reading: the trimmed text before the
first colon of the line. -/
def firstColonKey (l : List Char) : List Char :=
  trimChars (l.takeWhile (· != ':'))

/-- The value of the amended key/value reading: the trimmed text strictly
between the first colon and the second colon of the line, or the trimmed
remainder of the line when it contains exactly one colon. -/
def firstColonValue (l : List Char) : List Char :=
  trimChars (((l.dropWhile (· != ':')).drop 1).takeWhile (· != ':'))

/-- Claim C2 (amended): every line of the DNA section that contains a colon
is split into the trimmed key before the first colon and the trimmed value
reaching from the first colon up to the second colon or, if there is no
second colon, to the end of the line; lines without a colon are excluded
from the key/value view. -/
theorem dna_pairs_first_colon_split (result : List Char) :
    dnaPairs result =
      ((splitSub ['\n'] (dnaSectionBody result)).filter (fun l => l.contains ':')).map
        (fun l => (firstColonKey l, firstColonValue l)) := by
  unfold dnaPairs
  apply List.map_congr_left
  intro l hl
  have hmem : (':' : Char) ∈ l := by
    have := (List.mem_filter.mp hl).2
    simpa [List.contains, List.elem_iff] using this
  rw [splitSub_singleton_take_two hmem]
  simp [firstColonKey, firstColonValue]

/-- Lookup in a JS object keyed by numbers (`Record<number, T>`):
`m[k]`, yielding `none` for an absent key (JS `undefined`). -/
def recGet {α : Type} : List (Nat × α) → Nat → Option α
  | [], _ => none
  | (k', v') :: rest, k => if k' = k then some v' else recGet rest k

/-- Update of a JS object keyed by numbers: the spread
`{ ...prev, [k]: v }` overwrites the entry for `k` in place or appends a
fresh one. -/
def recSet {α : Type} : List (Nat × α) → Nat → α → List (Nat × α)
  | [], k, v => [(k, v)]
  | (k', v') :: rest, k, v =>
    if k' = k then (k, v) :: rest else (k', v') :: recSet rest k v

theorem recGet_recSet_self {α : Type} (m : List (Nat × α)) (k : Nat) (v : α) :
    recGet (recSet m k v) k = some v := by
  induction m with
  | nil => simp [recGet, recSet]
  | cons p rest ih =>
    obtain ⟨k', v'⟩ := p
    by_cases hk : k' = k
    · simp [recSet, hk, recGet]
    · simp [recSet, hk, recGet, ih]

theorem recGet_recSet_ne {α : Type} (m : List (Nat × α)) {k j : Nat} (v : α)
    (h : j ≠ k) : recGet (recSet m k v) j = recGet m j := by
  have hkj : ¬ (k = j) := fun hh => h hh.symm
  induction m with
  | nil => simp [recGet, recSet, hkj]
  | cons p rest ih =>
    obtain ⟨k', v'⟩ := p
    by_cases hk : k' = k
    · subst hk
      simp [recSet, recGet, hkj]
    · by_cases hj : k' = j
      · simp [recSet, hk, recGet, hj, h]
      · simp [recSet, hk, recGet, hj, ih]

/-- Severity tags of the FitLay activity log. -/
inductive LogType where
  | info
  | success
  | error
  | system
deriving DecidableEq

/-- One FitLay activity-log entry; the source also stores a timestamp-based
id (`Date.now() + Math.random()`), which carries no orchestration content
and is omitted. -/
structure LogEntry where
  msg : List Char
  type : LogType
deriving DecidableEq

/-- An extracted fashion item as returned by the detection call. -/
structure Item where
  name : List Char
  type : List Char
  color : List Char
  description : List Char
deriving DecidableEq

/-- The `inlineData` field of a Gateway response part. -/
structure InlineData where
  mimeType : List Char
  data : List Char
deriving DecidableEq

/-- One part of a Gateway response candidate. -/
structure RespPart where
  inlineData : Option InlineData
deriving DecidableEq

/-- The mutable state of the `VisualFitLay` component.  `Record<number, _>`
tables are association lists; the `abortControllerRef` of the source is
omitted because no `AbortController` is ever constructed or attached to a
request, so the ref stays `null` for the component's whole lifetime and
`reset`'s `abort()` call is dead code. -/
structure FitLayState where
  sourceImage : Option (List Char)
  sourceMime : List Char
  isAnalyzing : Bool
  logs : List LogEntry
  extractedItems : List Item
  itemVisuals : List (Nat × List Char)
  processingItems : List (Nat × Bool)
  failedItems : List (Nat × Bool)
deriving DecidableEq

/-- `addLog` of `VisualFitLay`: append one entry. -/
def addLog (msg : List Char) (t : LogType) (s : FitLayState) : FitLayState :=
  { s with logs := s.logs ++ [⟨msg, t⟩] }

/-- The FitLay initial state of the component's hooks. -/
def initFitLay : FitLayState :=
  { sourceImage := none, sourceMime := "image/png".data, isAnalyzing := false,
    logs := [], extractedItems := [], itemVisuals := [],
    processingItems := [], failedItems := [] }

/-- `handleFile` of `VisualFitLay` (src/src/main.tsx lines 551-563): a file
whose MIME type does not start with `image/` is rejected with an error log;
otherwise the MIME type is stored and, once the `FileReader` finishes, the
data URL `dataUrlOfFile` becomes the source image with a success log. -/
def handleFile (file_type file_name dataUrlOfFile : List Char) (s : FitLayState) : FitLayState :=
  if ("image/".data).isPrefixOf file_type then
    let s1 := { s with sourceMime := file_type, sourceImage := some dataUrlOfFile }
    addLog ("Image loaded: ".data ++ file_name) .success s1
  else
    addLog ("Invalid file type. Please upload an image.".data) .error s

/-- `reset` of `VisualFitLay` (src/src/main.tsx lines 565-574): clears all
run state and replaces the log with a single system entry.  The
`abortControllerRef.current.abort()` guard is vacuous (the ref is never
assigned), so no in-flight request is actually cancelled. -/
def reset (s : FitLayState) : FitLayState :=
  { sourceImage := none, sourceMime := s.sourceMime, isAnalyzing := false,
    extractedItems := [], itemVisuals := [], processingItems := [],
    failedItems := [],
    logs := [⟨"System reset. Ready for new input.".data, .system⟩] }

/-- The synchronous prefix of `processImage` (src/src/main.tsx lines
599-607) up to the detection `await`: a no-op without a source image,
otherwise clears the tables and logs the start of the run. -/
def processImageStart (s : FitLayState) : FitLayState :=
  match s.sourceImage with
  | none => s
  | some _ =>
    let s1 := { s with isAnalyzing := true, extractedItems := [],
                       itemVisuals := [], processingItems := [], failedItems := [] }
    addLog ("Initiating neural analysis...".data) .system s1

/-- The synchronous prefix of `extractItemVisual` (src/src/main.tsx lines
664-666) up to its `await`: mark the index as processing and log. -/
def synthStart (item : Item) (index : Nat) (s : FitLayState) : FitLayState :=
  let s1 := { s with processingItems := recSet s.processingItems index true }
  addLog ("Synthesizing visual for: ".data ++ item.name ++ "...".data) .info s1

/-- The continuation of `processImage` after the detection call settles
(src/src/main.tsx lines 645-661).  The JSON text of the response is
abstracted to its parsed `items` list (`Except.error` covers a throw
anywhere in the `try`).  On success the items are stored, a success entry
is logged, and `forEach` fires one `extractItemVisual` per item: each
call's synchronous prefix runs here and its Gateway request is collected in
the returned list, all before any synthesis response is consumed.  On
failure one error entry is logged and no synthesis request is issued. -/
def detectComplete (r : Except (List Char) (List Item)) (s : FitLayState) :
    FitLayState × List (Item × Nat) :=
  match r with
  | .ok items =>
    let s1 := { s with extractedItems := items, isAnalyzing := false }
    let s2 := addLog ("Detected ".data ++ (Nat.repr items.length).data ++
      " fashion elements. Starting visual synthesis...".data) .success s1
    (items.enum.foldl (fun st p => synthStart p.2 p.1 st) s2,
     items.enum.map (fun p => (p.2, p.1)))
  | .error e =>
    let s1 := addLog ("Analysis failed: ".data ++ e) LogType.error s
    ({ s1 with isAnalyzing := false }, [])

/-- The success branch of `extractItemVisual` (src/src/main.tsx lines
679-683 plus the `finally`): store the image data URL at the index, log,
and clear the processing flag. -/
def synthSuccess (item : Item) (index : Nat) (d : List Char) (s : FitLayState) : FitLayState :=
  let s1 := { s with itemVisuals := recSet s.itemVisuals index (("data:image/png;base64,".data) ++ d) }
  let s2 := addLog ("Visual ready: ".data ++ item.name) .success s1
  { s2 with processingItems := recSet s2.processingItems index false }

/-- The catch branch of `extractItemVisual` (src/src/main.tsx lines
687-693): mark the index failed, log, and clear the processing flag. -/
def synthFailure (item : Item) (index : Nat) (s : FitLayState) : FitLayState :=
  let s1 := { s with failedItems := recSet s.failedItems index true }
  let s2 := addLog ("Failed to extract ".data ++ item.name) .error s1
  { s2 with processingItems := recSet s2.processingItems index false }

/-- The image data the completion of `extractItemVisual` acts on
(src/src/main.tsx lines 679-680): `resp = none` models a rejected promise
(network failure or a response with no candidates/parts); otherwise the
code takes the first part carrying `inlineData`
(`response.candidates?.[0]?.content?.parts?.find((p) => p.inlineData)`)
and requires its `data` to be truthy (non-empty); `none` sends the control
flow into the catch branch. -/
def synthData (resp : Option (List RespPart)) : Option (List Char) :=
  match resp with
  | none => none
  | some parts =>
    match ((parts.find? (fun p => p.inlineData.isSome)).bind
        (fun p => p.inlineData)).map (fun d => d.data) with
    | none => none
    | some d => if d = [] then none else some d

/-- The continuation of `extractItemVisual` once its synthesis request
settles (src/src/main.tsx lines 679-693): the success branch when the
response carries truthy image data, the catch branch otherwise.  Note:
nothing here consults run identity, so the state update happens whether or
not the run was superseded. -/
def synthComplete (item : Item) (index : Nat) (resp : Option (List RespPart))
    (s : FitLayState) : FitLayState :=
  match synthData resp with
  | some d => synthSuccess item index d s
  | none => synthFailure item index s

/-- Number of `Error`-severity entries in a log. -/
def errorCount (logs : List LogEntry) : Nat :=
  (logs.filter (fun e => e.type = LogType.error)).length


theorem synthSuccess_fields (item : Item) (index : Nat) (d : List Char) (s : FitLayState) :
    (synthSuccess item index d s).itemVisuals =
        recSet s.itemVisuals index (("data:image/png;base64,".data) ++ d) ∧
    (synthSuccess item index d s).processingItems = recSet s.processingItems index false ∧
    (synthSuccess item index d s).failedItems = s.failedItems := by
  refine ⟨rfl, rfl, rfl⟩

theorem synthFailure_fields (item : Item) (index : Nat) (s : FitLayState) :
    (synthFailure item index s).itemVisuals = s.itemVisuals ∧
    (synthFailure item index s).processingItems = recSet s.processingItems index false ∧
    (synthFailure item index s).failedItems = recSet s.failedItems index true := by
  refine ⟨rfl, rfl, rfl⟩

/-- Claim C3: whenever the synthesis request of an item settles — with any
response whatsoever, fulfilled or rejected — the completion of
`extractItemVisual` leaves the item out of Processing and, provided its
slot was fresh when the request settled (as it is for every index of a
run), in exactly one of Succeeded (image payload stored at its index) or
Failed. -/
theorem synthesis_settles_terminal (s : FitLayState) (item : Item) (i : Nat)
    (resp : Option (List RespPart))
    (hv : recGet s.itemVisuals i = none) (hf : recGet s.failedItems i = none) :
    recGet (synthComplete item i resp s).processingItems i = some false ∧
    (((recGet (synthComplete item i resp s).itemVisuals i).isSome = true ∧
        recGet (synthComplete item i resp s).failedItems i = none) ∨
     ((recGet (synthComplete item i resp s).itemVisuals i).isSome = false ∧
        recGet (synthComplete item i resp s).failedItems i = some true)) := by
  unfold synthComplete
  cases hd : synthData resp with
  | some d =>
    obtain ⟨h1, h2, h3⟩ := synthSuccess_fields item i d s
    refine ⟨?_, Or.inl ⟨?_, ?_⟩⟩
    · rw [h2, recGet_recSet_self]
    · rw [h1, recGet_recSet_self]; rfl
    · rw [h3]; exact hf
  | none =>
    obtain ⟨h1, h2, h3⟩ := synthFailure_fields item i s
    refine ⟨?_, Or.inr ⟨?_, ?_⟩⟩
    · rw [h2, recGet_recSet_self]
    · rw [h1, hv]; rfl
    · rw [h3, recGet_recSet_self]

/-- A sample detected item for concrete runs. -/
def itemA : Item :=
  ⟨"Jacket".data, "outerwear".data, "black".data, "a black jacket".data⟩

/-- A second sample detected item. -/
def itemB : Item :=
  ⟨"Scarf".data, "accessory".data, "red".data, "a red scarf".data⟩

/-- A fulfilled synthesis response carrying the image payload `IMG`. -/
def respOk : Option (List RespPart) :=
  some [⟨some ⟨"image/png".data, "IMG".data⟩⟩]

/-- Witness for `synthesis_settles_terminal`: a rejected request on the
fresh initial state settles index 0 into Failed and out of Processing. -/
theorem synthesis_settles_terminal_witness :
    recGet (synthComplete itemA 0 none initFitLay).processingItems 0 = some false ∧
    (((recGet (synthComplete itemA 0 none initFitLay).itemVisuals 0).isSome = true ∧
        recGet (synthComplete itemA 0 none initFitLay).failedItems 0 = none) ∨
     ((recGet (synthComplete itemA 0 none initFitLay).itemVisuals 0).isSome = false ∧
        recGet (synthComplete itemA 0 none initFitLay).failedItems 0 = some true)) :=
  synthesis_settles_terminal initFitLay itemA 0 none (by decide) (by decide)

/-- Claim C4: a completion of item `i`'s synthesis — in particular a
failed one — mutates only index `i`'s entries of the state tables: index
`j ≠ i` keeps its visual, processing flag and failed flag, and a
subsequent successful synthesis response for `j` still stores `j`'s image
payload. -/
theorem synthesis_failure_isolated (s : FitLayState) (item itemJ : Item)
    (i j : Nat) (resp : Option (List RespPart)) (mime d : List Char)
    (hij : j ≠ i) (hd : d ≠ []) :
    recGet (synthComplete item i resp s).itemVisuals j = recGet s.itemVisuals j ∧
    recGet (synthComplete item i resp s).processingItems j = recGet s.processingItems j ∧
    recGet (synthComplete item i resp s).failedItems j = recGet s.failedItems j ∧
    recGet (synthComplete itemJ j (some [⟨some ⟨mime, d⟩⟩])
        (synthComplete item i resp s)).itemVisuals j =
      some (("data:image/png;base64,".data) ++ d) := by
  have hsucc : synthData (some [⟨some ⟨mime, d⟩⟩]) = some d := by
    simp [synthData, List.find?, hd]
  refine ⟨?_, ?_, ?_, ?_⟩
  · unfold synthComplete
    cases synthData resp with
    | some dd => exact (synthSuccess_fields item i dd s).1 ▸ recGet_recSet_ne _ _ hij
    | none => rw [(synthFailure_fields item i s).1]
  · unfold synthComplete
    cases synthData resp with
    | some dd => exact (synthSuccess_fields item i dd s).2.1 ▸ recGet_recSet_ne _ _ hij
    | none => exact (synthFailure_fields item i s).2.1 ▸ recGet_recSet_ne _ _ hij
  · unfold synthComplete
    cases synthData resp with
    | some dd => rw [(synthSuccess_fields item i dd s).2.2]
    | none => exact (synthFailure_fields item i s).2.2 ▸ recGet_recSet_ne _ _ hij
  · conv_lhs => rw [synthComplete, hsucc]
    rw [(synthSuccess_fields itemJ j d _).1, recGet_recSet_self]

/-- Witness for `synthesis_failure_isolated`: item 0 fails on the fresh
state, item 1 is untouched and then succeeds with payload `IMG`. -/
theorem synthesis_failure_isolated_witness :
    recGet (synthComplete itemA 0 none initFitLay).itemVisuals 1 =
        recGet initFitLay.itemVisuals 1 ∧
    recGet (synthComplete itemA 0 none initFitLay).processingItems 1 =
        recGet initFitLay.processingItems 1 ∧
    recGet (synthComplete itemA 0 none initFitLay).failedItems 1 =
        recGet initFitLay.failedItems 1 ∧
    recGet (synthComplete itemB 1 (some [⟨some ⟨"image/png".data, "IMG".data⟩⟩])
        (synthComplete itemA 0 none initFitLay)).itemVisuals 1 =
      some (("data:image/png;base64,".data) ++ "IMG".data) :=
  synthesis_failure_isolated initFitLay itemA itemB 0 1 none
    ("image/png".data) ("IMG".data) (by decide) (by decide)

/-- Claim C5: when the detection call of a run throws, exactly one
Error-severity log entry is appended over the whole run, the extracted-item
result set stays empty, and no per-item synthesis request is issued. -/
theorem detection_failure_terminal (s : FitLayState) (src e : List Char)
    (hsrc : s.sourceImage = some src) :
    errorCount (detectComplete (Except.error e) (processImageStart s)).1.logs =
        errorCount s.logs + 1 ∧
    (detectComplete (Except.error e) (processImageStart s)).1.extractedItems = [] ∧
    (detectComplete (Except.error e) (processImageStart s)).2 = [] := by
  unfold processImageStart
  rw [hsrc]
  unfold detectComplete addLog
  refine ⟨?_, rfl, rfl⟩
  simp [errorCount, List.filter_append]

/-- Witness for `detection_failure_terminal` on a loaded source image. -/
theorem detection_failure_terminal_witness :
    errorCount (detectComplete (Except.error ("boom".data))
        (processImageStart (handleFile ("image/png".data) ("model.png".data)
          ("data:image/png;base64,AAAA".data) initFitLay))).1.logs =
      errorCount (handleFile ("image/png".data) ("model.png".data)
          ("data:image/png;base64,AAAA".data) initFitLay).logs + 1 ∧
    (detectComplete (Except.error ("boom".data))
        (processImageStart (handleFile ("image/png".data) ("model.png".data)
          ("data:image/png;base64,AAAA".data) initFitLay))).1.extractedItems = [] ∧
    (detectComplete (Except.error ("boom".data))
        (processImageStart (handleFile ("image/png".data) ("model.png".data)
          ("data:image/png;base64,AAAA".data) initFitLay))).2 = [] :=
  detection_failure_terminal _ ("data:image/png;base64,AAAA".data) ("boom".data)
    (by decide)

theorem recGet_recSet_comm {α : Type} (m : List (Nat × α)) {i j : Nat}
    (vi vj : α) (h : i ≠ j) (k : Nat) :
    recGet (recSet (recSet m j vj) i vi) k = recGet (recSet (recSet m i vi) j vj) k := by
  by_cases hki : k = i
  · subst hki
    rw [recGet_recSet_self, recGet_recSet_ne _ _ h, recGet_recSet_self]
  · rw [recGet_recSet_ne _ _ hki]
    by_cases hkj : k = j
    · subst hkj
      rw [recGet_recSet_self, recGet_recSet_self]
    · rw [recGet_recSet_ne _ _ hkj, recGet_recSet_ne _ _ hkj, recGet_recSet_ne _ _ hki]

/-- Claim C9: after a successful detection of `items`, the single
continuation step of `processImage` issues one synthesis request per item
index, all at once — no request issuance awaits another request's
response.  Completions of distinct indices act only on their own index and
commute extensionally on all three state tables, so no completion order is
privileged and no item's synthesis blocks another's from completing. -/
theorem synthesis_fanout_concurrent (items : List Item) (s t : FitLayState)
    (itemI itemJ : Item) (i j k : Nat)
    (respI respJ : Option (List RespPart)) (hij : i ≠ j) :
    (detectComplete (Except.ok items) s).2 = items.enum.map (fun p => (p.2, p.1)) ∧
    (recGet (synthComplete itemI i respI t).itemVisuals j = recGet t.itemVisuals j ∧
     recGet (synthComplete itemI i respI t).processingItems j = recGet t.processingItems j ∧
     recGet (synthComplete itemI i respI t).failedItems j = recGet t.failedItems j) ∧
    (recGet (synthComplete itemI i respI (synthComplete itemJ j respJ t)).itemVisuals k =
       recGet (synthComplete itemJ j respJ (synthComplete itemI i respI t)).itemVisuals k ∧
     recGet (synthComplete itemI i respI (synthComplete itemJ j respJ t)).processingItems k =
       recGet (synthComplete itemJ j respJ (synthComplete itemI i respI t)).processingItems k ∧
     recGet (synthComplete itemI i respI (synthComplete itemJ j respJ t)).failedItems k =
       recGet (synthComplete itemJ j respJ (synthComplete itemI i respI t)).failedItems k) := by
  have hji : j ≠ i := fun hh => hij hh.symm
  refine ⟨rfl, ?_, ?_⟩
  · unfold synthComplete
    cases synthData respI with
    | some dd =>
      exact ⟨(synthSuccess_fields itemI i dd t).1 ▸ recGet_recSet_ne _ _ hji,
        (synthSuccess_fields itemI i dd t).2.1 ▸ recGet_recSet_ne _ _ hji,
        (synthSuccess_fields itemI i dd t).2.2 ▸ rfl⟩
    | none =>
      exact ⟨(synthFailure_fields itemI i t).1 ▸ rfl,
        (synthFailure_fields itemI i t).2.1 ▸ recGet_recSet_ne _ _ hji,
        (synthFailure_fields itemI i t).2.2 ▸ recGet_recSet_ne _ _ hji⟩
  · unfold synthComplete
    cases synthData respI with
    | some di =>
      cases synthData respJ with
      | some dj =>
        simp only [synthSuccess, addLog]
        refine ⟨?_, ?_, ?_⟩ <;> first | trivial | exact recGet_recSet_comm _ _ _ hij k
      | none =>
        simp only [synthSuccess, synthFailure, addLog]
        refine ⟨?_, ?_, ?_⟩ <;> first | trivial | exact recGet_recSet_comm _ _ _ hij k
    | none =>
      cases synthData respJ with
      | some dj =>
        simp only [synthSuccess, synthFailure, addLog]
        refine ⟨?_, ?_, ?_⟩ <;> first | trivial | exact recGet_recSet_comm _ _ _ hij k
      | none =>
        simp only [synthFailure, addLog]
        refine ⟨?_, ?_, ?_⟩ <;> first | trivial | exact recGet_recSet_comm _ _ _ hij k

/-- Witness for `synthesis_fanout_concurrent` with two items, index 0
failing and index 1 succeeding, checked at slot 1. -/
theorem synthesis_fanout_concurrent_witness :
    (detectComplete (Except.ok [itemA, itemB]) initFitLay).2 =
        [(itemA, 0), (itemB, 1)] ∧
    (recGet (synthComplete itemA 0 none initFitLay).itemVisuals 1 =
        recGet initFitLay.itemVisuals 1 ∧
     recGet (synthComplete itemA 0 none initFitLay).processingItems 1 =
        recGet initFitLay.processingItems 1 ∧
     recGet (synthComplete itemA 0 none initFitLay).failedItems 1 =
        recGet initFitLay.failedItems 1) ∧
    (recGet (synthComplete itemA 0 none (synthComplete itemB 1 respOk initFitLay)).itemVisuals 1 =
       recGet (synthComplete itemB 1 respOk (synthComplete itemA 0 none initFitLay)).itemVisuals 1 ∧
     recGet (synthComplete itemA 0 none (synthComplete itemB 1 respOk initFitLay)).processingItems 1 =
       recGet (synthComplete itemB 1 respOk (synthComplete itemA 0 none initFitLay)).processingItems 1 ∧
     recGet (synthComplete itemA 0 none (synthComplete itemB 1 respOk initFitLay)).failedItems 1 =
       recGet (synthComplete itemB 1 respOk (synthComplete itemA 0 none initFitLay)).failedItems 1) := by
  have h := synthesis_fanout_concurrent [itemA, itemB] initFitLay initFitLay
    itemA itemB 0 1 1 none respOk (by decide)
  refine ⟨?_, h.2.1, h.2.2⟩
  rw [h.1]
  decide

/-- A run with one loaded image: the state after `handleFile`. -/
def c1Loaded : FitLayState :=
  handleFile ("image/png".data) ("model.png".data)
    ("data:image/png;base64,AAAA".data) initFitLay

/-- The run after its detection succeeds with one item; item 0's synthesis
request is now in flight. -/
def c1Detected : FitLayState :=
  (detectComplete (Except.ok [itemA]) (processImageStart c1Loaded)).1

/-- The user resets while item 0's synthesis is still in flight. -/
def c1AfterReset : FitLayState := reset c1Detected

/-- The superseded run's synthesis response then arrives. -/
def c1StaleAfterReset : FitLayState := synthComplete itemA 0 respOk c1AfterReset

/-- After the reset a fresh image is loaded and a new detection run
returns one item, whose own synthesis (index 0) is now in flight. -/
def c1NewRun : FitLayState :=
  (detectComplete (Except.ok [itemB])
    (processImageStart (handleFile ("image/jpeg".data) ("other.jpg".data)
      ("data:image/jpeg;base64,BBBB".data) c1AfterReset))).1

/-- The old run's synthesis response arrives during the new run. -/
def c1StaleInNewRun : FitLayState := synthComplete itemA 0 respOk c1NewRun

/-- Claim C1 fails on the code: `extractItemVisual`'s completion never
consults run identity (the only cancellation machinery, `reset`'s
`abortControllerRef.current?.abort()`, aborts a controller that is never
created or attached to a request), so a synthesis response arriving after
a reset writes the stale image into the cleared `itemVisuals` table, and a
response arriving during a later detection run overwrites that run's index
0: it deposits the old run's image and clears the new item's processing
flag while its own synthesis is still in flight. -/
theorem stale_synthesis_mutates_superseded_run :
    c1AfterReset.itemVisuals = [] ∧
    recGet c1StaleAfterReset.itemVisuals 0 =
        some ("data:image/png;base64,IMG".data) ∧
    ¬ c1StaleAfterReset.itemVisuals = c1AfterReset.itemVisuals ∧
    recGet c1NewRun.itemVisuals 0 = none ∧
    recGet c1NewRun.processingItems 0 = some true ∧
    recGet c1StaleInNewRun.itemVisuals 0 =
        some ("data:image/png;base64,IMG".data) ∧
    recGet c1StaleInNewRun.processingItems 0 = some false := by
  decide

/-- A browser `File` as the handlers consume it: byte size, MIME type,
name, and the base64 payload the `FileReader` would produce (the reader
and `URL.createObjectURL` are opaque browser collaborators, so the payload
travels with the file value). -/
structure JsFile where
  size : Nat
  type : List Char
  name : List Char
  content : List Char
deriving DecidableEq

/-- The 5 MB upload limit shared by `VisualExtractor` and `VisualSuite`. -/
def MAX_FILE_SIZE : Nat := 5 * 1024 * 1024

/-- The MIME types accepted by both upload validators. -/
def allowedTypes : List (List Char) :=
  ["image/jpeg".data, "image/png".data, "image/webp".data]

/-- One part of a Gateway request payload. -/
inductive ReqPart where
  | image (mimeType : List Char) (data : List Char)
  | text (t : List Char)
deriving DecidableEq

/-- The state of the `VisualExtractor` component relevant to upload
validation (the analysis-mode and model selectors do not interact with
it); the error `ReactNode` is modelled by its message text. -/
structure ExtractorState where
  imageFile : Option JsFile
  imagePreviewUrl : Option (List Char)
  result : Option (List Char)
  error : Option (List Char)
deriving DecidableEq

/-- A stand-in for the opaque `URL.createObjectURL`. -/
def objectUrl (f : JsFile) : List Char :=
  "blob:".data ++ f.name

/-- `handleFileChange` of `VisualExtractor` (src/src/main.tsx lines
88-97): a file within the size limit and of an allowed MIME type is
stored (clearing error and result); anything else only sets the inline
error message. -/
def handleFileChange (s : ExtractorState) (file : JsFile) : ExtractorState :=
  if file.size ≤ MAX_FILE_SIZE ∧ allowedTypes.contains file.type then
    { s with imageFile := some file, imagePreviewUrl := some (objectUrl file),
             error := none, result := none }
  else
    { s with error := some ("Invalid file: Max 5MB, JPG, PNG, or WEBP only.".data) }

/-- The image attachment `handleAnalyze` of `VisualExtractor` would put in
its Gateway request: the stored file's MIME type and base64 payload
(src/src/main.tsx lines 138-149); no file, no attachment. -/
def analyzeAttachment (s : ExtractorState) : Option ReqPart :=
  s.imageFile.map (fun f => ReqPart.image f.type f.content)

/-- The state of the `VisualSuite` component. -/
structure SuiteState where
  prompt : List Char
  negativePrompt : List Char
  referenceImages : List JsFile
  referenceImageUrls : List (List Char)
  generatedImageUrl : Option (List Char)
  imageToEdit : Option JsFile
  loading : Bool
  error : Option (List Char)
deriving DecidableEq

/-- The upload filter of `VisualSuite.handleFileChange` (src/src/components/
VisualSuite/index.tsx lines 37-39). -/
def validSuiteFile (f : JsFile) : Bool :=
  decide (f.size ≤ MAX_FILE_SIZE) && allowedTypes.contains f.type

/-- `handleFileChange` of `VisualSuite` (src/src/components/VisualSuite/
index.tsx lines 35-50): keep the size/type-valid files of the selection;
reject the whole upload with an inline error when it would exceed two
reference images, otherwise append the files and their object URLs. -/
def suiteHandleFileChange (s : SuiteState) (files : List JsFile) : SuiteState :=
  let newFiles := files.filter validSuiteFile
  if 2 < newFiles.length + s.referenceImages.length then
    { s with error := some ("You can upload a maximum of 2 reference images.".data) }
  else
    { s with referenceImages := s.referenceImages ++ newFiles,
             referenceImageUrls := s.referenceImageUrls ++ newFiles.map objectUrl,
             error := none }

/-- `handleRemoveReferenceImage` (src/src/components/VisualSuite/index.tsx
lines 65-68): `filter((_, i) => i !== index)` on both lists, i.e. removal
of the entry at that position. -/
def handleRemoveReferenceImage (s : SuiteState) (index : Nat) : SuiteState :=
  { s with referenceImages := s.referenceImages.eraseIdx index,
           referenceImageUrls := s.referenceImageUrls.eraseIdx index }

/-- `handleEditImage` (src/src/components/VisualSuite/index.tsx lines
220-230): when a generated image is pending, it becomes the single
reference image and the other inputs are cleared. -/
def handleEditImage (s : SuiteState) : SuiteState :=
  match s.imageToEdit with
  | none => s
  | some f =>
    { s with referenceImages := [f], referenceImageUrls := [objectUrl f],
             prompt := [], negativePrompt := [], generatedImageUrl := none,
             imageToEdit := none, error := none }

/-- `handleGenerateImage` of `VisualSuite` (src/src/components/VisualSuite/
index.tsx lines 70-156) up to the Gateway call, returning the new state
and the list of issued Gateway requests (each a parts list): an empty
prompt with no reference image is rejected inline before any request is
built; otherwise one request is issued whose parts are the reference
images' inline data followed by the prompt text (with the negative prompt
appended as an `--exclude` clause when present).  The paid-model
credential branch is statically dead — the model is hardcoded to
`gemini-2.5-flash-image`, never `gemini-3-pro-image-preview`. -/
def handleGenerateImage (s : SuiteState) : SuiteState × List (List ReqPart) :=
  if s.prompt = [] ∧ s.referenceImages = [] then
    ({ s with error := some ("Please provide a prompt or at least one reference image.".data) }, [])
  else
    let fullPrompt :=
      if s.negativePrompt = [] then s.prompt
      else s.prompt ++ " --exclude ".data ++ s.negativePrompt
    ({ s with loading := true, error := none, generatedImageUrl := none },
     [s.referenceImages.map (fun f => ReqPart.image f.type f.content) ++
       [ReqPart.text fullPrompt]])

/-- The initial hook state of `VisualSuite` (the prompt field starts as
`bersihkan gambar`). -/
def initSuite : SuiteState :=
  { prompt := "bersihkan gambar".data, negativePrompt := [],
    referenceImages := [], referenceImageUrls := [], generatedImageUrl := none,
    imageToEdit := none, loading := false, error := none }

/-- The initial hook state of `VisualExtractor`. -/
def initExtractor : ExtractorState :=
  { imageFile := none, imagePreviewUrl := none, result := none, error := none }

/-- The representation invariant of the reference-image pair of lists. -/
def suiteInv (s : SuiteState) : Prop :=
  s.referenceImages.length ≤ 2 ∧
  s.referenceImages.length = s.referenceImageUrls.length

/-- Claim C10: each of the three operations touching the reference-image
lists preserves "at most two reference images, and the file list and the
URL list have equal length", and an upload whose valid files would push
the total above two is rejected with the inline maximum-two error leaving
the state otherwise unchanged. -/
theorem reference_images_invariant (s : SuiteState) (files : List JsFile)
    (i : Nat) (hinv : suiteInv s) :
    suiteInv (suiteHandleFileChange s files) ∧
    suiteInv (handleRemoveReferenceImage s i) ∧
    suiteInv (handleEditImage s) ∧
    (2 < (files.filter validSuiteFile).length + s.referenceImages.length →
      suiteHandleFileChange s files =
        { s with error := some ("You can upload a maximum of 2 reference images.".data) }) := by
  obtain ⟨hle, heq⟩ := hinv
  refine ⟨?_, ?_, ?_, ?_⟩
  · unfold suiteHandleFileChange
    by_cases hg : 2 < (files.filter validSuiteFile).length + s.referenceImages.length
    · rw [if_pos hg]
      exact ⟨hle, heq⟩
    · rw [if_neg hg]
      refine ⟨?_, ?_⟩
      · simp only [List.length_append]
        omega
      · simp only [List.length_append, List.length_map]
        omega
  · unfold handleRemoveReferenceImage
    refine ⟨?_, ?_⟩
    · simp only [List.length_eraseIdx]
      split <;> omega
    · simp only [List.length_eraseIdx, heq]
  · unfold handleEditImage
    cases s.imageToEdit with
    | none => exact ⟨hle, heq⟩
    | some f => exact ⟨by simp, by simp⟩
  · intro hg
    rw [suiteHandleFileChange, if_pos hg]

/-- Witness for `reference_images_invariant`: one reference image already
held, an upload of two further valid PNGs is rejected. -/
theorem reference_images_invariant_witness :
    suiteInv (suiteHandleFileChange
      { initSuite with referenceImages := [⟨4, "image/png".data, "a.png".data, "AA".data⟩],
                       referenceImageUrls := ["blob:a.png".data] }
      [⟨4, "image/png".data, "b.png".data, "BB".data⟩,
       ⟨4, "image/png".data, "c.png".data, "CC".data⟩]) ∧
    suiteHandleFileChange
      { initSuite with referenceImages := [⟨4, "image/png".data, "a.png".data, "AA".data⟩],
                       referenceImageUrls := ["blob:a.png".data] }
      [⟨4, "image/png".data, "b.png".data, "BB".data⟩,
       ⟨4, "image/png".data, "c.png".data, "CC".data⟩] =
      { initSuite with referenceImages := [⟨4, "image/png".data, "a.png".data, "AA".data⟩],
                       referenceImageUrls := ["blob:a.png".data],
                       error := some ("You can upload a maximum of 2 reference images.".data) } := by
  have h := reference_images_invariant
    { initSuite with referenceImages := [⟨4, "image/png".data, "a.png".data, "AA".data⟩],
                     referenceImageUrls := ["blob:a.png".data] }
    [⟨4, "image/png".data, "b.png".data, "BB".data⟩,
     ⟨4, "image/png".data, "c.png".data, "CC".data⟩]
    0 (by constructor <;> decide)
  exact ⟨h.1, h.2.2.2 (by decide)⟩

/-- The inline-data attachment of the detection request `processImage`
issues once a source image is loaded (src/src/main.tsx lines 609-619):
the stored MIME type together with
`base64Data = sourceImage.split(',')[1]`; `none` when no source image is
loaded (`processImage` returns before building a request). -/
def detectAttachment (s : FitLayState) : Option ReqPart :=
  s.sourceImage.map (fun src =>
    ReqPart.image s.sourceMime (((splitSub [','] src).get? 1).getD []))

/-- An oversized PNG: one byte above the 5 MB limit. -/
def hugePng : JsFile :=
  ⟨MAX_FILE_SIZE + 1, "image/png".data, "huge.png".data, "HUGE".data⟩

/-- The data URL FitLay's `FileReader` produces for `hugePng`. -/
def hugeDataUrl : List Char := "data:image/png;base64,HUGE".data

/-- Counterexample to claim C8: `VisualFitLay.handleFile` validates only
the MIME-type prefix and never reads `file.size`, so the oversized
image-typed file `hugePng` is accepted with no inline failure report of
any severity (its only log entry is a success), it becomes the source
image, and `processImage` then puts its base64 payload into the detection
request sent to the Gateway. -/
theorem oversized_file_reaches_gateway :
    MAX_FILE_SIZE < hugePng.size ∧
    errorCount (handleFile hugePng.type hugePng.name hugeDataUrl initFitLay).logs = 0 ∧
    (handleFile hugePng.type hugePng.name hugeDataUrl initFitLay).sourceImage =
        some hugeDataUrl ∧
    detectAttachment (processImageStart
        (handleFile hugePng.type hugePng.name hugeDataUrl initFitLay)) =
      some (ReqPart.image ("image/png".data) ("HUGE".data)) := by
  decide

/-- Claim C8 (amended): validation and the Gateway boundary, per
component.  In `VisualExtractor` an oversized or wrong-type upload is
rejected with an inline error and the stored request attachment is
unchanged, so the file is never sent.  In `VisualFitLay` only the MIME
type is validated: a non-image file is rejected with one inline error log
and the source image is unchanged, but any image-typed file — of any
size — is accepted and its payload goes into the detection request.  In
`VisualSuite` an upload's oversized or wrong-type files are silently
dropped: only size/type-valid files are appended to the reference list
(never reaching a request), with no inline report when the remainder
fits; and a generate request with an empty prompt and no reference image
is rejected inline with zero Gateway requests issued. -/
theorem validation_boundary_amended
    (s1 : ExtractorState) (f1 : JsFile)
    (s2 s4 : FitLayState) (f2type f2name f2data f4type f4name f4data : List Char)
    (s3 : SuiteState) (ufiles : List JsFile)
    (h1 : ¬ (f1.size ≤ MAX_FILE_SIZE ∧ allowedTypes.contains f1.type))
    (h2 : ("image/".data).isPrefixOf f2type = false)
    (h3 : s3.prompt = [] ∧ s3.referenceImages = [])
    (h4 : ("image/".data).isPrefixOf f4type = true)
    (h5 : ¬ 2 < (ufiles.filter validSuiteFile).length + s3.referenceImages.length) :
    (handleFileChange s1 f1).error =
        some ("Invalid file: Max 5MB, JPG, PNG, or WEBP only.".data) ∧
    analyzeAttachment (handleFileChange s1 f1) = analyzeAttachment s1 ∧
    errorCount (handleFile f2type f2name f2data s2).logs = errorCount s2.logs + 1 ∧
    (handleFile f2type f2name f2data s2).sourceImage = s2.sourceImage ∧
    (handleFile f4type f4name f4data s4).sourceImage = some f4data ∧
    detectAttachment (processImageStart (handleFile f4type f4name f4data s4)) =
      some (ReqPart.image f4type (((splitSub [','] f4data).get? 1).getD [])) ∧
    (suiteHandleFileChange s3 ufiles).referenceImages =
        s3.referenceImages ++ ufiles.filter validSuiteFile ∧
    (suiteHandleFileChange s3 ufiles).error = none ∧
    (handleGenerateImage s3).1.error =
        some ("Please provide a prompt or at least one reference image.".data) ∧
    (handleGenerateImage s3).2 = [] := by
  refine ⟨?_, ?_, ?_, ?_, ?_, ?_, ?_, ?_, ?_, ?_⟩
  · rw [handleFileChange, if_neg h1]
  · rw [handleFileChange, if_neg h1]
    rfl
  · rw [handleFile, if_neg (by simp [h2])]
    simp [addLog, errorCount, List.filter_append]
  · rw [handleFile, if_neg (by simp [h2])]
    rfl
  · rw [handleFile, if_pos (by simp [h4])]
    rfl
  · rw [handleFile, if_pos (by simp [h4])]
    rfl
  · rw [suiteHandleFileChange, if_neg h5]
  · rw [suiteHandleFileChange, if_neg h5]
  · rw [handleGenerateImage, if_pos h3]
  · rw [handleGenerateImage, if_pos h3]

/-- Witness for `validation_boundary_amended`: the oversized PNG rejected
by the extractor but accepted and sent by FitLay, a `text/plain` file
rejected by FitLay, the same oversized PNG silently dropped from a Suite
reference upload, and an empty-prompt/no-reference generate request
rejected with no request issued. -/
theorem validation_boundary_amended_witness :
    (handleFileChange initExtractor hugePng).error =
        some ("Invalid file: Max 5MB, JPG, PNG, or WEBP only.".data) ∧
    analyzeAttachment (handleFileChange initExtractor hugePng) =
        analyzeAttachment initExtractor ∧
    errorCount (handleFile ("text/plain".data) ("notes.txt".data)
        ("data:text/plain;base64,QQ".data) initFitLay).logs =
      errorCount initFitLay.logs + 1 ∧
    (handleFile ("text/plain".data) ("notes.txt".data)
        ("data:text/plain;base64,QQ".data) initFitLay).sourceImage =
      initFitLay.sourceImage ∧
    (handleFile hugePng.type hugePng.name hugeDataUrl initFitLay).sourceImage =
        some hugeDataUrl ∧
    detectAttachment (processImageStart
        (handleFile hugePng.type hugePng.name hugeDataUrl initFitLay)) =
      some (ReqPart.image hugePng.type
        (((splitSub [','] hugeDataUrl).get? 1).getD [])) ∧
    (suiteHandleFileChange { initSuite with prompt := [] } [hugePng]).referenceImages =
        [] ++ [hugePng].filter validSuiteFile ∧
    (suiteHandleFileChange { initSuite with prompt := [] } [hugePng]).error = none ∧
    (handleGenerateImage { initSuite with prompt := [] }).1.error =
        some ("Please provide a prompt or at least one reference image.".data) ∧
    (handleGenerateImage { initSuite with prompt := [] }).2 = [] :=
  validation_boundary_amended initExtractor hugePng
    initFitLay initFitLay ("text/plain".data) ("notes.txt".data)
    ("data:text/plain;base64,QQ".data) hugePng.type hugePng.name hugeDataUrl
    { initSuite with prompt := [] } [hugePng]
    (by decide) (by decide) (by decide) (by decide) (by decide)
